import Mathlib

/-!
Verification of the ids-showroom product catalog's search & filtering engine.

The Lean definitions below are a shallow embedding of the JavaScript model
layer (`src/models/product.js`: `searchProducts`, `getManufacturers`,
`getCategoriesForManufacturer`, `getProductBySku`) and of the `/products`
route (`src/routes/products.js`, the search-enabled version).

The store is a `List Product` (insertion order = table order).  PostgreSQL
full-text matching (`search_vector @@ plainto_tsquery('german', t)`) and
ranking (`ts_rank`) are abstracted as explicit function parameters
`tsMatch : String → Product → Bool` and `tsRank : String → Product → Int`;
the SQL applies them uniformly to every row, and nothing in the queries
inspects their internals.  An `ORDER BY` whose sole key is the rank leaves
the relative order of equal-rank rows unspecified, so the result rows are
modelled relationally: `validItems` holds of every list the database may
return.
-/

namespace Showroom

/-- A row of the `products` table.  Only the columns that occur in a WHERE,
GROUP BY or ORDER BY clause of the queries under study are modelled; the
remaining descriptive columns (variant name, description, image URL, …)
ride along in `SELECT *` but never enter any predicate. -/
structure Product where
  sku : String
  name : String
  manufacturer : String
  category : Option String
  active : Bool
deriving DecidableEq, Repr

/-- The argument object of `searchProducts({query, manufacturer, category,
page, limit})`, with the source's default values. -/
structure SearchRequest where
  query : String := ""
  manufacturer : Option String := none
  category : Option String := none
  page : Int := 1
  limit : Int := 48
deriving DecidableEq, Repr

/-- JavaScript truthiness of a `string | null` value: `null`, `undefined`
and `''` are falsy, every other string is truthy. -/
def truthy : Option String → Bool
  | none => false
  | some s => s ≠ ""

/-- JavaScript `String.prototype.trim()`: strip whitespace from both ends. -/
def jsTrim (s : String) : String :=
  ⟨((s.data.dropWhile Char.isWhitespace).reverse.dropWhile
      Char.isWhitespace).reverse⟩

/-- Lexicographic comparison of character lists by code point, the order
the store uses for `ORDER BY … ASC` on text columns. -/
def lexLe : List Char → List Char → Bool
  | [], _ => true
  | _ :: _, [] => false
  | a :: as, b :: bs =>
    if a.toNat < b.toNat then true
    else if b.toNat < a.toNat then false
    else lexLe as bs

/-- String comparison used by the store's ascending text sorts. -/
def strle (a b : String) : Bool :=
  lexLe a.data b.data

/-- The guard `query && query.trim() !== ''` used by `searchProducts` both
to add the text predicate and to choose the ORDER BY clause. -/
def hasText (q : String) : Bool :=
  (q ≠ "" : Bool) && (jsTrim q ≠ "" : Bool)

/-- WHERE clause of the result query assembled by `searchProducts`
(src/models/product.js lines 54–82): `active = true`, then one predicate
per truthy filter, ANDed in order (text match on the trimmed query,
manufacturer equality, category equality). -/
def resultWhere (tsMatch : String → Product → Bool) (req : SearchRequest)
    (p : Product) : Bool :=
  p.active
    && (if hasText req.query then tsMatch (jsTrim req.query) p else true)
    && (match req.manufacturer with
        | some m => if m = "" then true else p.manufacturer == m
        | none => true)
    && (match req.category with
        | some c => if c = "" then true else p.category == some c
        | none => true)

/-- WHERE clause of the count query assembled by `searchProducts`
(src/models/product.js lines 99–116), written out separately because the
source duplicates the predicate-building logic for `countSql`. -/
def countWhere (tsMatch : String → Product → Bool) (req : SearchRequest)
    (p : Product) : Bool :=
  p.active
    && (if hasText req.query then tsMatch (jsTrim req.query) p else true)
    && (match req.manufacturer with
        | some m => if m = "" then true else p.manufacturer == m
        | none => true)
    && (match req.category with
        | some c => if c = "" then true else p.category == some c
        | none => true)

/-- The rows satisfying the result query's WHERE clause, in table order. -/
def matchingRows (tsMatch : String → Product → Bool) (store : List Product)
    (req : SearchRequest) : List Product :=
  store.filter (resultWhere tsMatch req)

/-- `totalCount` returned by `searchProducts`: the value of
`SELECT COUNT(*)` under the count query's WHERE clause. -/
def totalCount (tsMatch : String → Product → Bool) (store : List Product)
    (req : SearchRequest) : Nat :=
  (store.filter (countWhere tsMatch req)).length

/-- The ORDER BY comparison of the result query: `ts_rank … DESC` when the
trimmed query text is non-empty, `name ASC` otherwise.  `a` may precede `b`
exactly when this relation holds. -/
def rankOrdered (tsRank : String → Product → Int) (req : SearchRequest)
    (a b : Product) : Prop :=
  if hasText req.query then
    tsRank (jsTrim req.query) b ≤ tsRank (jsTrim req.query) a
  else
    strle a.name b.name = true

instance (tsRank : String → Product → Int) (req : SearchRequest)
    (a b : Product) : Decidable (rankOrdered tsRank req a b) := by
  unfold rankOrdered
  infer_instance

/-- `OFFSET` computed by `searchProducts`: `(page - 1) * limit`. -/
def offset (req : SearchRequest) : Int :=
  (req.page - 1) * req.limit

/-- A full ordering of the matching rows the database may use: any
permutation of the matching rows that is pairwise consistent with the
ORDER BY key (the single sort key leaves ties unordered). -/
def validFullList (tsMatch : String → Product → Bool)
    (tsRank : String → Product → Int) (store : List Product)
    (req : SearchRequest) (l : List Product) : Prop :=
  l.Perm (matchingRows tsMatch store req) ∧ l.Pairwise (rankOrdered tsRank req)

/-- The row lists `searchProducts` may return as `products`: a
`LIMIT limit OFFSET offset` window of some valid full ordering.  PostgreSQL
rejects a negative OFFSET, so a result exists only when `offset ≥ 0`. -/
def validItems (tsMatch : String → Product → Bool)
    (tsRank : String → Product → Int) (store : List Product)
    (req : SearchRequest) (rows : List Product) : Prop :=
  0 ≤ offset req ∧
    ∃ l, validFullList tsMatch tsRank store req l ∧
      rows = (l.drop (offset req).toNat).take req.limit.toNat

/-- `GROUP BY key ORDER BY key ASC` with `COUNT(*)`: one `(key, count)` row
per distinct key, keys ascending. -/
def groupCounts (keys : List String) : List (String × Nat) :=
  (List.insertionSort (fun a b => strle a b = true) keys.dedup).map
    (fun k => (k, keys.count k))

/-- `getManufacturers()` (src/models/product.js lines 130–141): per-
manufacturer `COUNT(*)` over `active = true` rows, ordered by manufacturer
ascending.  It takes no filter arguments at all. -/
def getManufacturers (store : List Product) : List (String × Nat) :=
  groupCounts ((store.filter (fun p => p.active)).map (fun p => p.manufacturer))

/-- `getCategoriesForManufacturer(manufacturer)` (src/models/product.js
lines 148–161): per-category `COUNT(*)` over rows with `active = true`,
`manufacturer = $1` and `category IS NOT NULL`, ordered ascending. -/
def getCategoriesForManufacturer (store : List Product) (manufacturer : String) :
    List (String × Nat) :=
  groupCounts
    ((store.filter (fun p =>
        p.active && p.manufacturer == manufacturer && p.category.isSome)).filterMap
      (fun p => p.category))

/-- `getProductBySku(sku)` (src/models/product.js lines 168–177): the first
row with `sku = $1 AND active = true`, or `null`. -/
def getProductBySku (store : List Product) (sku : String) : Option Product :=
  (store.filter (fun p => p.sku == sku && p.active)).head?

/-- The query-string parameters the `/products` route reads; each is absent
(`none`) or a string. -/
structure HttpQuery where
  q : Option String := none
  manufacturer : Option String := none
  category : Option String := none
  page : Option String := none
deriving DecidableEq, Repr

/-- `x || ''` applied to a `string | undefined` query parameter. -/
def orEmpty : Option String → String
  | none => ""
  | some s => s

/-- `x || null` applied to a `string | undefined` query parameter: absent
and empty-string values both become `null`. -/
def orNull : Option String → Option String
  | none => none
  | some s => if s = "" then none else some s

/-- JavaScript `parseInt` restricted to decimal inputs: skip leading
whitespace, read an optional sign and then the longest run of leading
digits; `none` models `NaN`. -/
def jsParseInt (s : String) : Option Int :=
  let t := jsTrim s
  let signAndRest : Int × List Char :=
    match t.data with
    | '-' :: cs => (-1, cs)
    | '+' :: cs => (1, cs)
    | cs => (1, cs)
  let ds := signAndRest.2.takeWhile Char.isDigit
  if ds = [] then none
  else
    some (signAndRest.1 *
      (ds.foldl (fun acc c => 10 * acc + ((c.toNat - '0'.toNat : Nat) : Int)) 0))

/-- `parseInt` on a possibly-absent parameter (`parseInt(undefined)` is
`NaN`). -/
def jsParseIntOpt : Option String → Option Int
  | none => none
  | some s => jsParseInt s

/-- `parseInt(req.query.page) || 1`: `NaN` and `0` are falsy and become 1;
every other integer — including negative ones — passes through. -/
def routePage (ps : Option String) : Int :=
  match jsParseIntOpt ps with
  | some n => if n = 0 then 1 else n
  | none => 1

/-- The `SearchRequest` the `/products` route builds from its query
parameters (src/routes/products.js lines 69–80): `q || ''`,
`manufacturer || null`, `category || null`, `parseInt(page) || 1`, fixed
`limit: 48`. -/
def routeRequest (qp : HttpQuery) : SearchRequest :=
  { query := orEmpty qp.q
    manufacturer := orNull qp.manufacturer
    category := orNull qp.category
    page := routePage qp.page
    limit := 48 }

/-- The OFFSET the store receives for a given `/products` request. -/
def routeOffset (qp : HttpQuery) : Int :=
  offset (routeRequest qp)

/-- Sidebar categories of the `/products` route (lines 86–89):
`getCategoriesForManufacturer` only when the coerced manufacturer is
truthy, `[]` otherwise. -/
def routeCategories (store : List Product) (qp : HttpQuery) :
    List (String × Nat) :=
  match orNull qp.manufacturer with
  | some m => getCategoriesForManufacturer store m
  | none => []

/-- Sidebar manufacturers of the `/products` route (line 83): always
`getManufacturers()`, which receives none of the request's filters. -/
def routeManufacturerFacets (store : List Product) (_qp : HttpQuery) :
    List (String × Nat) :=
  getManufacturers store

/-- `Math.ceil(totalCount / 48)` computed by the route's pagination block
(lines 111–115), as exact natural-number arithmetic. -/
def routeTotalPages (totalCount : Nat) : Nat :=
  (totalCount + 47) / 48

/-- Sample active product of BrandX with a category, for concrete runs. -/
def pA : Product := ⟨"S1", "Alpha", "BrandX", some "Cat1", true⟩

/-- Sample active product of BrandX without a category. -/
def pB : Product := ⟨"S2", "Beta", "BrandX", none, true⟩

/-- Sample inactive product. -/
def pInact : Product := ⟨"S3", "Gamma", "BrandY", some "Cat2", false⟩

/-- A text-match oracle under which every row matches every query. -/
def tsMatchAll : String → Product → Bool := fun _ _ => true

/-- A rank oracle assigning every row the same relevance score. -/
def tsRankZero : String → Product → Int := fun _ _ => 0

/- ------------------------------------------------------------------ -/
/- Helper lemmas                                                      -/
/- ------------------------------------------------------------------ -/

/-- Every predicate built by `searchProducts` starts with `active = true`,
so satisfying the result query's WHERE clause forces `active`. -/
theorem resultWhere_active {tsMatch : String → Product → Bool}
    {req : SearchRequest} {p : Product} (h : resultWhere tsMatch req p = true) :
    p.active = true := by
  have h1 := (Bool.and_eq_true _ _).mp h
  have h2 := (Bool.and_eq_true _ _).mp h1.1
  exact ((Bool.and_eq_true _ _).mp h2.1).1

/-- Pre-filtering the table down to its `active` rows does not change the
result of any filter that itself implies `active`. -/
theorem filter_active_filter (f : Product → Bool)
    (hf : ∀ p, f p = true → p.active = true) (store : List Product) :
    (store.filter (fun p => p.active)).filter f = store.filter f := by
  induction store with
  | nil => rfl
  | cons hd tl ih =>
    cases hhd : f hd with
    | true =>
      have hact : hd.active = true := hf hd hhd
      simp [List.filter_cons, hact, hhd, ih]
    | false =>
      cases hact : hd.active with
      | true => simp [List.filter_cons, hact, hhd, ih]
      | false => simp [List.filter_cons, hact, hhd, ih]

/-- A paging window `(l.drop n).take m` is a sublist of `l`. -/
theorem window_sublist (l : List Product) (n m : Nat) :
    ((l.drop n).take m).Sublist l :=
  (List.take_sublist _ _).trans (List.drop_sublist _ _)

/-- Counting one value among the results of a `filterMap` is the length of
the corresponding filter. -/
theorem count_filterMap_eq (f : Product → Option String) (c : String) :
    ∀ l : List Product,
      ((l.filterMap f).count c) = (l.filter (fun p => f p == some c)).length := by
  intro l
  induction l with
  | nil => rfl
  | cons hd tl ih =>
    cases hfd : f hd with
    | none =>
      simp [List.filterMap_cons, hfd, List.filter_cons, ih]
    | some v =>
      by_cases hv : v = c
      · subst hv
        simp [List.filterMap_cons, hfd, List.filter_cons, List.count_cons, ih]
      · simp [List.filterMap_cons, hfd, List.filter_cons, List.count_cons, hv, ih]

/-- Counting one value among the images of a `map` is the length of the
corresponding filter. -/
theorem count_map_eq (f : Product → String) (c : String) :
    ∀ l : List Product,
      ((l.map f).count c) = (l.filter (fun p => f p == c)).length := by
  intro l
  induction l with
  | nil => rfl
  | cons hd tl ih =>
    by_cases hv : f hd = c
    · simp [List.map_cons, List.filter_cons, List.count_cons, hv, ih]
    · simp [List.map_cons, List.filter_cons, List.count_cons, hv, ih]

/-- Membership in a `GROUP BY`/`COUNT(*)` result: the key occurs in the key
list and the count is its multiplicity. -/
theorem mem_groupCounts {keys : List String} {c : String} {k : Nat} :
    (c, k) ∈ groupCounts keys ↔ c ∈ keys ∧ k = keys.count c := by
  unfold groupCounts
  rw [List.mem_map]
  constructor
  · rintro ⟨x, hx, hxe⟩
    have hx' : x ∈ keys.dedup :=
      (List.perm_insertionSort (fun a b => strle a b = true) keys.dedup).mem_iff.mp hx
    obtain ⟨h1, h2⟩ := Prod.mk.injEq .. ▸ hxe
    subst h1
    exact ⟨List.mem_dedup.mp hx', h2.symm⟩
  · rintro ⟨hc, hk⟩
    refine ⟨c, ?_, by rw [hk]⟩
    exact (List.perm_insertionSort (fun a b => strle a b = true) keys.dedup).mem_iff.mpr
      (List.mem_dedup.mpr hc)

/- ------------------------------------------------------------------ -/
/- Claim theorems                                                     -/
/- ------------------------------------------------------------------ -/

/-- C1: the count query built by `searchProducts` applies exactly the same
filter predicates as the result query (active, text, manufacturer,
category, each present under the same condition), so `totalCount` equals
the number of rows satisfying the result query's WHERE clause. -/
theorem count_query_matches_result_query :
    ∀ (tsMatch : String → Product → Bool) (store : List Product)
      (req : SearchRequest),
      countWhere tsMatch req = resultWhere tsMatch req ∧
      totalCount tsMatch store req = (matchingRows tsMatch store req).length :=
  fun _ _ _ => ⟨rfl, rfl⟩

/-- C2: no `active = false` row is visible to any query in scope: the rows
and count of `searchProducts`, the facet counts of `getManufacturers` and
`getCategoriesForManufacturer`, and the row of `getProductBySku` are
unchanged when the inactive rows are removed from the store, every returned
item is active, and a row returned by `getProductBySku` is active. -/
theorem inactive_rows_invisible :
    ∀ (tsMatch : String → Product → Bool) (tsRank : String → Product → Int)
      (store : List Product) (req : SearchRequest) (rows : List Product)
      (m sku : String),
      matchingRows tsMatch store req =
          matchingRows tsMatch (store.filter (fun p => p.active)) req ∧
      totalCount tsMatch store req =
          totalCount tsMatch (store.filter (fun p => p.active)) req ∧
      (validItems tsMatch tsRank store req rows →
        ∀ p ∈ rows, p.active = true) ∧
      getManufacturers store =
          getManufacturers (store.filter (fun p => p.active)) ∧
      getCategoriesForManufacturer store m =
          getCategoriesForManufacturer (store.filter (fun p => p.active)) m ∧
      getProductBySku store sku =
          getProductBySku (store.filter (fun p => p.active)) sku ∧
      (∀ p, getProductBySku store sku = some p → p.active = true) := by
  intro tsMatch tsRank store req rows m sku
  refine ⟨?_, ?_, ?_, ?_, ?_, ?_, ?_⟩
  · exact (filter_active_filter _ (fun _ h => resultWhere_active h) store).symm
  · exact congrArg List.length
      (filter_active_filter _ (fun _ h => resultWhere_active h) store).symm
  · rintro ⟨-, l, ⟨hperm, -⟩, hrows⟩ p hp
    have hpl : p ∈ l := (hrows ▸ window_sublist l _ _).mem hp
    have hpm : p ∈ matchingRows tsMatch store req := hperm.subset hpl
    exact resultWhere_active (List.mem_filter.mp hpm).2
  · unfold getManufacturers
    rw [filter_active_filter (fun p => p.active) (fun _ h => h) store]
  · unfold getCategoriesForManufacturer
    rw [filter_active_filter _
      (fun p h => ((Bool.and_eq_true _ _).mp ((Bool.and_eq_true _ _).mp h).1).1)
      store]
  · unfold getProductBySku
    rw [filter_active_filter _
      (fun p h => ((Bool.and_eq_true _ _).mp h).2) store]
  · intro p hp
    unfold getProductBySku at hp
    cases hl : store.filter (fun p => p.sku == sku && p.active) with
    | nil => rw [hl] at hp; simp at hp
    | cons a t =>
      rw [hl] at hp
      simp only [List.head?_cons, Option.some.injEq] at hp
      have ha : a ∈ store.filter (fun p => p.sku == sku && p.active) := by
        rw [hl]; exact List.mem_cons_self a t
      exact hp ▸ ((Bool.and_eq_true _ _).mp (List.mem_filter.mp ha).2).2

/-- C2 witness: the invisibility theorem applied to a concrete two-row
store with one inactive row and a concrete valid result list. -/
theorem inactive_rows_invisible_witness :
    pA.active = true ∧
      getManufacturers [pA, pInact] =
        getManufacturers ([pA, pInact].filter (fun p => p.active)) := by
  have h := inactive_rows_invisible tsMatchAll tsRankZero [pA, pInact] {} [pA]
    "BrandX" "S1"
  have hvi : validItems tsMatchAll tsRankZero [pA, pInact] {} [pA] :=
    ⟨by decide, [pA], ⟨by decide, by decide⟩, by decide⟩
  exact ⟨h.2.2.1 hvi pA (by simp), h.2.2.2.1⟩

/-- C3 counterexample: `parseInt(req.query.page) || 1` only coerces `0` and
`NaN` to 1; a page parameter of `"-1"` is truthy, passes through unclamped,
and yields the negative offset `(-1 - 1) * 48 = -96`. -/
theorem page_clamp_counterexample :
    routePage (some "-1") = -1 ∧
      routeOffset { page := some "-1" } = -96 ∧
      ¬ 0 ≤ routeOffset { page := some "-1" } := by
  refine ⟨by decide, by decide, by decide⟩

/-- C3 amended: a page parameter parsing to 0, or missing/non-numeric, is
coerced to 1, any other parsed value — including negative ones — passes
through unchanged; the limit is always 48, and whenever the resulting page
is ≥ 1 the offset is `(page - 1) * 48` and non-negative. -/
theorem page_coercion_amended :
    ∀ (ps : Option String) (qp : HttpQuery),
      (jsParseIntOpt ps = none → routePage ps = 1) ∧
      (jsParseIntOpt ps = some 0 → routePage ps = 1) ∧
      (∀ n : Int, jsParseIntOpt ps = some n → n ≠ 0 → routePage ps = n) ∧
      (routeRequest qp).limit = 48 ∧
      (1 ≤ routePage qp.page →
        routeOffset qp = (routePage qp.page - 1) * 48 ∧ 0 ≤ routeOffset qp) := by
  intro ps qp
  refine ⟨?_, ?_, ?_, rfl, ?_⟩
  · intro h; simp [routePage, h]
  · intro h; simp [routePage, h]
  · intro n h hn; simp [routePage, h, hn]
  · intro h
    have heq : routeOffset qp = (routePage qp.page - 1) * 48 := rfl
    refine ⟨heq, ?_⟩
    rw [heq]
    have h1 : 0 ≤ routePage qp.page - 1 := by omega
    exact mul_nonneg h1 (by norm_num)

/-- C3 amended witness: a page parameter of `"0"` is coerced to page 1 with
offset 0. -/
theorem page_coercion_amended_witness :
    routePage (some "0") = 1 ∧ 0 ≤ routeOffset { page := some "0" } := by
  have h := page_coercion_amended (some "0") { page := some "0" }
  exact ⟨h.2.1 (by decide), (h.2.2.2.2 (by decide)).2⟩

/-- C4 counterexample: the result query orders by `ts_rank … DESC` with no
secondary key, so with two equal-rank matching rows both orders are valid
result lists for the same request against the same store — the sequence is
not determined. -/
theorem order_determinism_counterexample :
    validItems tsMatchAll tsRankZero [pA, pB] { query := "x" } [pA, pB] ∧
      validItems tsMatchAll tsRankZero [pA, pB] { query := "x" } [pB, pA] ∧
      ([pA, pB] : List Product) ≠ [pB, pA] := by
  refine ⟨⟨by decide, [pA, pB], ⟨by decide, by decide⟩, by decide⟩,
    ⟨by decide, [pB, pA], ⟨by decide, by decide⟩, by decide⟩, by decide⟩

/-- C4 amended: for a request with non-empty text every list of items the
query may return is in non-increasing relevance-rank order against the
trimmed text, but equal-rank items have no fixed secondary order. -/
theorem rank_order_amended :
    ∀ (tsMatch : String → Product → Bool) (tsRank : String → Product → Int)
      (store : List Product) (req : SearchRequest) (rows : List Product),
      hasText req.query = true →
      validItems tsMatch tsRank store req rows →
      rows.Pairwise (fun a b =>
        tsRank (jsTrim req.query) b ≤ tsRank (jsTrim req.query) a) := by
  rintro tsMatch tsRank store req rows ht ⟨-, l, ⟨-, hpw⟩, hrows⟩
  have hsub : rows.Sublist l := hrows ▸ window_sublist l _ _
  refine (List.Pairwise.sublist hsub hpw).imp ?_
  intro a b hab
  simpa [rankOrdered, ht] using hab

/-- C4 amended witness: the rank-order theorem applied to a concrete store,
request and valid result list. -/
theorem rank_order_amended_witness :
    List.Pairwise (fun a b : Product =>
      tsRankZero (jsTrim "x") b ≤ tsRankZero (jsTrim "x") a) [pA, pB] :=
  rank_order_amended tsMatchAll tsRankZero [pA, pB] { query := "x" } [pA, pB]
    (by decide) ⟨by decide, [pA, pB], ⟨by decide, by decide⟩, by decide⟩

/-- C5: a query whose trim is empty adds no text predicate — the WHERE
clauses of both queries coincide with those of the same request with empty
text under any text-match oracle — valid result lists are ordered by name
ascending, and with no manufacturer/category filter `totalCount` is the
number of all active rows. -/
theorem empty_text_is_no_filter :
    ∀ (tsMatch tsMatch2 : String → Product → Bool)
      (tsRank : String → Product → Int) (store : List Product)
      (req : SearchRequest) (rows : List Product),
      jsTrim req.query = "" →
      resultWhere tsMatch req = resultWhere tsMatch2 { req with query := "" } ∧
      countWhere tsMatch req = countWhere tsMatch2 { req with query := "" } ∧
      (validItems tsMatch tsRank store req rows →
        rows.Pairwise (fun a b => strle a.name b.name = true)) ∧
      (req.manufacturer = none → req.category = none →
        totalCount tsMatch store req =
          (store.filter (fun p => p.active)).length) := by
  intro tsMatch tsMatch2 tsRank store req rows htrim
  have hft : hasText req.query = false := by simp [hasText, htrim]
  refine ⟨?_, ?_, ?_, ?_⟩
  · funext p
    simp [resultWhere, hasText, htrim]
  · funext p
    simp [countWhere, hasText, htrim]
  · rintro ⟨-, l, ⟨-, hpw⟩, hrows⟩
    have hsub : rows.Sublist l := hrows ▸ window_sublist l _ _
    refine (List.Pairwise.sublist hsub hpw).imp ?_
    intro a b hab
    simpa [rankOrdered, hft] using hab
  · intro hm hc
    exact congrArg List.length
      (List.filter_congr (fun p _ => by simp [countWhere, hft, hm, hc]))

/-- C5 witness: a whitespace-only query over a concrete store behaves as an
unfiltered request: the single active row comes back in name order and the
count is the number of active rows. -/
theorem empty_text_is_no_filter_witness :
    List.Pairwise (fun a b : Product => strle a.name b.name = true) [pA] ∧
      totalCount tsMatchAll [pA, pInact] { query := "   " } =
        ([pA, pInact].filter (fun p => p.active)).length := by
  have h := empty_text_is_no_filter tsMatchAll tsMatchAll tsRankZero
    [pA, pInact] { query := "   " } [pA] (by decide)
  exact ⟨h.2.2.1 ⟨by decide, [pA], ⟨by decide, by decide⟩, by decide⟩,
    h.2.2.2 rfl rfl⟩

/-- C6: the route returns no category facets when the manufacturer query
parameter is absent or empty, and for a manufacturer `m` the facet list
contains exactly the categories occurring among `m`'s active products,
each with the number of `m`'s active products in that category. -/
theorem category_facets_contract :
    ∀ (store : List Product) (qp : HttpQuery) (m c : String) (k : Nat),
      (qp.manufacturer = none ∨ qp.manufacturer = some "" →
        routeCategories store qp = []) ∧
      ((c, k) ∈ getCategoriesForManufacturer store m ↔
        (∃ p ∈ store, p.active = true ∧ p.manufacturer = m ∧
            p.category = some c) ∧
          k = (store.filter (fun p =>
                p.active && p.manufacturer == m && p.category == some c)).length) := by
  intro store qp m c k
  constructor
  · rintro (h | h) <;> simp [routeCategories, orNull, h]
  · unfold getCategoriesForManufacturer
    rw [mem_groupCounts, count_filterMap_eq, List.filter_filter]
    have hpred : store.filter (fun a =>
          (a.category == some c) &&
            (a.active && a.manufacturer == m && a.category.isSome)) =
        store.filter (fun p =>
          p.active && p.manufacturer == m && p.category == some c) := by
      refine List.filter_congr (fun p _ => ?_)
      cases hcc : (p.category == some c) with
      | false => simp [hcc]
      | true =>
        have hiso : p.category.isSome = true := by
          rw [beq_iff_eq] at hcc; rw [hcc]; rfl
        simp [hcc, hiso, Bool.and_comm]
    rw [hpred]
    constructor
    · rintro ⟨hmem, hk⟩
      obtain ⟨p, hp, hpc⟩ := List.mem_filterMap.mp hmem
      have hf := List.mem_filter.mp hp
      have hb := (Bool.and_eq_true _ _).mp hf.2
      have hb2 := (Bool.and_eq_true _ _).mp hb.1
      exact ⟨⟨p, hf.1, hb2.1, beq_iff_eq.mp hb2.2, hpc⟩, hk⟩
    · rintro ⟨⟨p, hs, ha, hm2, hc2⟩, hk⟩
      refine ⟨List.mem_filterMap.mpr ⟨p, List.mem_filter.mpr ⟨hs, ?_⟩, hc2⟩, hk⟩
      rw [Bool.and_eq_true, Bool.and_eq_true, beq_iff_eq]
      exact ⟨⟨ha, hm2⟩, by rw [hc2]; rfl⟩

/-- C6 witness: the contract applied concretely — an empty-string
manufacturer parameter yields no category facets, and BrandX's facet for
Cat1 counts its single active product. -/
theorem category_facets_contract_witness :
    routeCategories [pA, pB, pInact] ⟨none, some "", none, none⟩ = [] ∧
      ("Cat1", 1) ∈ getCategoriesForManufacturer [pA, pB, pInact] "BrandX" := by
  have h := category_facets_contract [pA, pB, pInact]
    ⟨none, some "", none, none⟩ "BrandX" "Cat1" 1
  exact ⟨h.1 (Or.inr rfl),
    h.2.mpr ⟨⟨pA, by simp, rfl, rfl, rfl⟩, by decide⟩⟩

/-- C7: the manufacturer facet list the route renders is always
`getManufacturers()` over the whole store — it receives none of the
request's filters, so two requests differing only in text/category get
identical facets — and each entry pairs a manufacturer occurring among the
active rows with its count over the whole active catalog. -/
theorem manufacturer_facets_whole_catalog :
    ∀ (store : List Product) (qp1 qp2 : HttpQuery) (m : String) (k : Nat),
      (qp1.manufacturer = qp2.manufacturer → qp1.page = qp2.page →
        routeManufacturerFacets store qp1 = routeManufacturerFacets store qp2) ∧
      routeManufacturerFacets store qp1 = getManufacturers store ∧
      ((m, k) ∈ getManufacturers store ↔
        (∃ p ∈ store, p.active = true ∧ p.manufacturer = m) ∧
          k = (store.filter (fun p => p.active && p.manufacturer == m)).length) := by
  intro store qp1 qp2 m k
  refine ⟨fun _ _ => rfl, rfl, ?_⟩
  unfold getManufacturers
  rw [mem_groupCounts, count_map_eq, List.filter_filter]
  have hpred : store.filter (fun a =>
        ((fun p => p.manufacturer) a == m) && (fun p => p.active) a) =
      store.filter (fun p => p.active && p.manufacturer == m) := by
    refine List.filter_congr (fun p _ => ?_)
    exact Bool.and_comm _ _
  rw [hpred]
  constructor
  · rintro ⟨hmem, hk⟩
    obtain ⟨p, hp, hpm⟩ := List.mem_map.mp hmem
    have hf := List.mem_filter.mp hp
    exact ⟨⟨p, hf.1, hf.2, hpm⟩, hk⟩
  · rintro ⟨⟨p, hs, ha, hm2⟩, hk⟩
    exact ⟨List.mem_map.mpr ⟨p, List.mem_filter.mpr ⟨hs, ha⟩, hm2⟩, hk⟩

/-- C7 witness: two requests sharing manufacturer and page but with
different text and category filters receive identical manufacturer facets,
and BrandX's facet over a concrete catalog is its active-product count. -/
theorem manufacturer_facets_whole_catalog_witness :
    routeManufacturerFacets [pA, pB, pInact] ⟨some "drill", none, none, none⟩ =
        routeManufacturerFacets [pA, pB, pInact] ⟨none, none, some "Cat1", none⟩ ∧
      ("BrandX", 2) ∈ getManufacturers [pA, pB, pInact] := by
  have h := manufacturer_facets_whole_catalog [pA, pB, pInact]
    ⟨some "drill", none, none, none⟩ ⟨none, none, some "Cat1", none⟩ "BrandX" 2
  exact ⟨h.1 rfl rfl, h.2.2.mpr ⟨⟨pA, by simp, rfl, rfl⟩, by decide⟩⟩

/-- C8: when the request's predicates match no row, the search still
yields a result — the empty item list is valid, every valid item list is
empty, and `totalCount` is 0 — rather than an error. -/
theorem empty_result_is_not_error :
    ∀ (tsMatch : String → Product → Bool) (tsRank : String → Product → Int)
      (store : List Product) (req : SearchRequest),
      0 ≤ offset req →
      matchingRows tsMatch store req = [] →
      validItems tsMatch tsRank store req [] ∧
      (∀ rows, validItems tsMatch tsRank store req rows → rows = []) ∧
      totalCount tsMatch store req = 0 := by
  intro tsMatch tsRank store req hoff hempty
  refine ⟨⟨hoff, [], ⟨by rw [hempty], List.Pairwise.nil⟩, by simp⟩, ?_, ?_⟩
  · rintro rows ⟨-, l, ⟨hperm, -⟩, hrows⟩
    have hl : l = [] := List.Perm.eq_nil (hempty ▸ hperm)
    rw [hrows, hl]
    simp
  · unfold totalCount
    rw [show countWhere tsMatch req = resultWhere tsMatch req from rfl]
    rw [show store.filter (resultWhere tsMatch req) =
      matchingRows tsMatch store req from rfl, hempty]
    rfl

/-- C8 witness: a manufacturer filter matching no product yields the empty
result and a zero count on a concrete store. -/
theorem empty_result_is_not_error_witness :
    validItems tsMatchAll tsRankZero [pA] { manufacturer := some "Nope" } [] ∧
      totalCount tsMatchAll [pA] { manufacturer := some "Nope" } = 0 := by
  have h := empty_result_is_not_error tsMatchAll tsRankZero [pA]
    { manufacturer := some "Nope" } (by decide) (by decide)
  exact ⟨h.1, h.2.2⟩

/-- C9: the route's pagination state satisfies
`totalPages = ceil(totalCount / 48)`, and in particular a zero count gives
zero pages. -/
theorem total_pages_is_ceil :
    ∀ n : Nat,
      routeTotalPages n = Nat.ceil ((n : ℚ) / 48) ∧ routeTotalPages 0 = 0 := by
  intro n
  refine ⟨?_, rfl⟩
  have h48 : (0 : ℚ) < 48 := by norm_num
  set c := Nat.ceil ((n : ℚ) / 48) with hc
  have hle : (n : ℚ) / 48 ≤ c := Nat.le_ceil _
  have hcn : (n : ℚ) ≤ c * 48 := by rwa [div_le_iff₀ h48] at hle
  have hcnat : n ≤ c * 48 := by exact_mod_cast hcn
  have hdn : (n : Nat) ≤ 48 * ((n + 47) / 48) := by omega
  have hdc : c ≤ (n + 47) / 48 := by
    rw [hc]
    refine Nat.ceil_le.mpr ?_
    rw [div_le_iff₀ h48]
    exact_mod_cast by omega
  refine Nat.le_antisymm ?_ hdc
  show (n + 47) / 48 ≤ c
  omega

/-- C10: an empty-string manufacturer or category query parameter produces
the same `SearchRequest` as an absent one (so no predicate is applied), an
empty-string manufacturer yields no category facets, and a missing or
non-numeric page parameter is treated as page 1. -/
theorem empty_param_treated_as_absent :
    ∀ (store : List Product) (q mp c p : Option String) (s : String),
      routeRequest ⟨q, some "", c, p⟩ = routeRequest ⟨q, none, c, p⟩ ∧
      routeCategories store ⟨q, some "", c, p⟩ = [] ∧
      routeRequest ⟨q, mp, some "", p⟩ = routeRequest ⟨q, mp, none, p⟩ ∧
      routePage none = 1 ∧
      (jsParseInt s = none → routePage (some s) = 1) := by
  intro store q mp c p s
  refine ⟨rfl, rfl, rfl, rfl, ?_⟩
  intro h
  simp [routePage, jsParseIntOpt, h]

/-- C10 witness: the coercion theorem applied to a fully non-numeric page
parameter and an empty-string manufacturer parameter. -/
theorem empty_param_treated_as_absent_witness :
    routePage (some "abc") = 1 ∧
      routeCategories [pA] ⟨none, some "", none, none⟩ = [] := by
  have h := empty_param_treated_as_absent [pA] none none none none "abc"
  exact ⟨h.2.2.2.2 (by decide), h.2.1⟩

end Showroom
